import Mathlib

/-!
Verification of the laurel audit-log enrichment core against its
specification.  The Rust sources (src/types.rs, src/proc/table.rs,
src/procfs.rs, src/proc/parser.rs) are shallowly embedded: byte strings
become `List Nat`, machine integers become `Nat`/`Int` with explicit
wrapping where a cast occurs, fallible code returns `Option`/`Except`,
and filesystem / clock inputs (file contents, pid snapshots, clock
readings) are passed as explicit arguments.
-/

namespace Laurel

/-- Raw byte strings (`Vec<u8>` / `&[u8]`) are lists of byte values. -/
abbrev Bytes := List Nat

/-! ## EventID and ProcKey (src/types.rs, src/proc/table.rs) -/

/-- Embedding of `EventID { timestamp: u64, sequence: u32 }`
(src/types.rs lines 23-27). -/
structure EventID where
  timestamp : Nat
  sequence : Nat
deriving DecidableEq, Repr

/-- Embedding of `enum ProcKey { Event(EventID), Time(u64) }`
(src/proc/table.rs lines 47-52). -/
inductive ProcKey where
  | Event : EventID → ProcKey
  | Time : Nat → ProcKey
deriving DecidableEq, Repr

/-- Comparison of unsigned machine integers (`u64::cmp` /
`u64::partial_cmp`, which is always `Some`). -/
def natCmp (a b : Nat) : Ordering :=
  if a < b then .lt else if a = b then .eq else .gt

/-- Embedding of `impl Ord for ProcKey` (src/proc/table.rs lines 71-87).
In the `(Time, Event)` and `(Event, Time)` arms the source applies
`partial_cmp` on `u64` followed by `unwrap_or(Less)` /
`unwrap_or(Greater)`; `u64::partial_cmp` never returns `None`, so those
defaults are dead and the arms compare the timestamps alone. -/
def ProcKey.cmp : ProcKey → ProcKey → Ordering
  | .Event s, .Event o => (natCmp s.timestamp o.timestamp).then (natCmp s.sequence o.sequence)
  | .Time s, .Event o => natCmp s o.timestamp
  | .Event s, .Time o => natCmp s.timestamp o
  | .Time s, .Time o => natCmp s o

theorem natCmp_lt_iff {a b : Nat} : natCmp a b = .lt ↔ a < b := by
  unfold natCmp
  split_ifs with h1 h2 <;> simp_all

theorem natCmp_eq_iff {a b : Nat} : natCmp a b = .eq ↔ a = b := by
  unfold natCmp
  split_ifs with h1 h2
  · exact ⟨fun h => h.elim, fun h => absurd h (by omega)⟩
  · exact ⟨fun _ => h2, fun _ => rfl⟩
  · exact ⟨fun h => h.elim, fun h => absurd h (by omega)⟩

theorem natCmp_gt_iff {a b : Nat} : natCmp a b = .gt ↔ b < a := by
  unfold natCmp
  split_ifs with h1 h2
  · exact ⟨fun h => h.elim, fun h => absurd h (by omega)⟩
  · exact ⟨fun h => h.elim, fun h => absurd h (by omega)⟩
  · exact ⟨fun _ => by omega, fun _ => rfl⟩

/-- C3 counterexample: a `Time`/`Event` pair sharing a timestamp compares
`Equal` under the source `Ord`, not strictly less-than as the claim
states. -/
theorem prockey_time_event_tie_is_equal :
    ProcKey.cmp (.Time 5) (.Event ⟨5, 7⟩) = Ordering.eq ∧
    ProcKey.cmp (.Time 5) (.Event ⟨5, 7⟩) ≠ Ordering.lt := by
  constructor
  · rfl
  · intro h
    exact absurd h (by decide)

/-- C3 amended: two `Event` keys compare lexicographically by
`(timestamp, sequence)`, two `Time` keys compare by value, and a `Time`
key against an `Event` key is compared by timestamp alone — equal
timestamps yield `Equal` (never `Less`), and `Time a` is strictly below
`Event` exactly when `a` is strictly below the event timestamp. -/
theorem prockey_cmp_characterization :
    ∀ t1 s1 t2 s2 a b : Nat,
      (ProcKey.cmp (.Event ⟨t1, s1⟩) (.Event ⟨t2, s2⟩) = .lt ↔
        (t1 < t2 ∨ (t1 = t2 ∧ s1 < s2))) ∧
      (ProcKey.cmp (.Time a) (.Time b) = .lt ↔ a < b) ∧
      (ProcKey.cmp (.Time a) (.Event ⟨t2, s2⟩) = .lt ↔ a < t2) ∧
      (ProcKey.cmp (.Time a) (.Event ⟨t2, s2⟩) = .eq ↔ a = t2) ∧
      (ProcKey.cmp (.Event ⟨t1, s1⟩) (.Time b) = .gt ↔ b < t1) := by
  intro t1 s1 t2 s2 a b
  refine ⟨?_, natCmp_lt_iff, natCmp_lt_iff, natCmp_eq_iff, natCmp_gt_iff⟩
  show (natCmp t1 t2).then (natCmp s1 s2) = .lt ↔ _
  rcases Nat.lt_trichotomy t1 t2 with h | h | h
  · rw [natCmp_lt_iff.mpr h]
    exact ⟨fun _ => Or.inl h, fun _ => rfl⟩
  · subst h
    rw [natCmp_eq_iff.mpr rfl]
    show natCmp s1 s2 = .lt ↔ _
    rw [natCmp_lt_iff]
    omega
  · rw [natCmp_gt_iff.mpr h]
    constructor
    · intro hh
      exact Ordering.noConfusion hh
    · intro hh
      exfalso
      omega

/-! ## ProcTable (src/proc/table.rs)

`BTreeMap` / `BTreeSet` keyed by `ProcKey` are modelled as association
lists ordered by `ProcKey.cmp`; following `BTreeMap` semantics, two keys
are the same map slot when `cmp` returns `Equal`, and inserting over an
existing slot replaces the value while keeping the stored key.  The
`u32 -> Vec<ProcKey>` map `by_pid` is an association list keyed by pid.
`HashSet<Vec<u8>>` label sets are duplicate-free lists.  The opaque
`LabelMatcher` is a function from exe bytes to label lists. -/

/-- Key identity as used by `BTreeMap<ProcKey, _>`: `Ord::cmp` returning
`Equal`. -/
def keyEq (a b : ProcKey) : Bool :=
  match ProcKey.cmp a b with
  | .eq => true
  | _ => false

/-- Embedding of `Process` (src/proc/table.rs lines 27-36);
`container_info` carries the `ContainerInfo::id` bytes. -/
structure Process where
  key : ProcKey
  ppid : Option Nat
  parent_key : Option ProcKey
  labels : List Bytes
  comm : Option Bytes
  exe : Option Bytes
  container_info : Option Bytes
deriving DecidableEq, Repr

/-- Embedding of `Process::event_id` (src/proc/table.rs lines 38-45). -/
def Process.event_id (p : Process) : Option EventID :=
  match p.key with
  | .Event id => some id
  | _ => none

/-- Insert into the ordered `procs` map (`BTreeMap::insert`): the value at
an `Equal` slot is replaced, the stored key is kept, otherwise the entry
is placed in `ProcKey.cmp` order. -/
def mapInsert : List (ProcKey × Process) → ProcKey → Process → List (ProcKey × Process)
  | [], k, v => [(k, v)]
  | (k0, v0) :: rest, k, v =>
    match ProcKey.cmp k k0 with
    | .lt => (k, v) :: (k0, v0) :: rest
    | .eq => (k0, v) :: rest
    | .gt => (k0, v0) :: mapInsert rest k v

/-- Lookup in the `procs` map (`BTreeMap::get`). -/
def mapGet : List (ProcKey × Process) → ProcKey → Option Process
  | [], _ => none
  | (k0, v0) :: rest, k => if keyEq k k0 then some v0 else mapGet rest k

/-- Removal from the `procs` map (`BTreeMap::remove`). -/
def mapRemove : List (ProcKey × Process) → ProcKey → List (ProcKey × Process)
  | [], _ => []
  | (k0, v0) :: rest, k => if keyEq k k0 then rest else (k0, v0) :: mapRemove rest k

/-- In-place update of one entry, as through `BTreeMap::get_mut`; a
missing key is a no-op. -/
def mapModify : List (ProcKey × Process) → ProcKey → (Process → Process) → List (ProcKey × Process)
  | [], _, _ => []
  | (k0, v0) :: rest, k, f =>
    if keyEq k k0 then (k0, f v0) :: rest else (k0, v0) :: mapModify rest k f

/-- Lookup in the `by_pid` map (`BTreeMap<u32, Vec<ProcKey>>::get`). -/
def pidGet : List (Nat × List ProcKey) → Nat → Option (List ProcKey)
  | [], _ => none
  | (p0, v0) :: rest, p => if p = p0 then some v0 else pidGet rest p

/-- Insert or replace a `by_pid` entry. -/
def pidPut : List (Nat × List ProcKey) → Nat → List ProcKey → List (Nat × List ProcKey)
  | [], p, v => [(p, v)]
  | (p0, v0) :: rest, p, v =>
    if p = p0 then (p0, v) :: rest else (p0, v0) :: pidPut rest p v

/-- Membership in the `proc_prune` set (`BTreeSet::contains`, key
identity by `Ord`). -/
def setMem (s : List ProcKey) (k : ProcKey) : Bool :=
  s.any (fun k0 => keyEq k k0)

/-- Removal from the `proc_prune` set (`BTreeSet::remove`). -/
def setRemove : List ProcKey → ProcKey → List ProcKey
  | [], _ => []
  | k0 :: rest, k => if keyEq k k0 then rest else k0 :: setRemove rest k

/-- Insertion into a `HashSet<Vec<u8>>` of labels. -/
def labelAdd (labels : List Bytes) (l : Bytes) : List Bytes :=
  if labels.contains l then labels else labels ++ [l]

/-- Stable insertion used to model `Vec::sort` on a `by_pid` hint list
(Rust `sort` is stable and uses `Ord for ProcKey`). -/
def sortInsertKey (k : ProcKey) : List ProcKey → List ProcKey
  | [] => [k]
  | a :: rest =>
    match ProcKey.cmp k a with
    | .lt => k :: a :: rest
    | _ => a :: sortInsertKey k rest

/-- Stable sort by `ProcKey.cmp`, modelling `Vec::sort`. -/
def sortKeys : List ProcKey → List ProcKey
  | [] => []
  | a :: rest => sortInsertKey a (sortKeys rest)

/-- Embedding of `ProcTable` (src/proc/table.rs lines 95-104). -/
structure ProcTable where
  procs : List (ProcKey × Process)
  by_pid : List (Nat × List ProcKey)
  label_exe : Option (Bytes → List Bytes)
  propagate_labels : List Bytes

/-- The default (empty) table. -/
def ProcTable.empty : ProcTable :=
  { procs := [], by_pid := [], label_exe := none, propagate_labels := [] }

/-- Embedding of `ProcTable::get` (src/proc/table.rs lines 195-197). -/
def ProcTable.get (t : ProcTable) (key : ProcKey) : Option Process :=
  mapGet t.procs key

/-- Embedding of `ProcTable::get_process` (src/proc/table.rs lines
186-192): most-recent generation of a pid. -/
def ProcTable.get_process (t : ProcTable) (pid : Nat) : Option Process :=
  ((pidGet t.by_pid pid).bind List.getLast?).bind (mapGet t.procs)

/-- Embedding of `ProcTable::add_process` (src/proc/table.rs lines
218-256).  Note that the source inserts the new process with
`labels = HashSet::new()` and consults neither `propagate_labels` nor
`label_exe`. -/
def ProcTable.add_process (t : ProcTable) (pid ppid : Nat) (id : EventID)
    (comm exe : Option Bytes) : ProcTable :=
  let key := ProcKey.Event id
  let parent_key := (pidGet t.by_pid ppid).bind List.getLast?
  let p : Process :=
    { key := key, ppid := some ppid, parent_key := parent_key, labels := [],
      comm := comm, exe := exe, container_info := none }
  let procs := mapInsert t.procs key p
  let by_pid :=
    match pidGet t.by_pid pid with
    | some v => pidPut t.by_pid pid (sortKeys (v ++ [key]))
    | none => pidPut t.by_pid pid [key]
  { t with procs := procs, by_pid := by_pid }

/-- Embedding of `ProcTable::add_label` (src/proc/table.rs lines
259-263). -/
def ProcTable.add_label (t : ProcTable) (key : ProcKey) (label : Bytes) : ProcTable :=
  { t with procs := mapModify t.procs key (fun p => { p with labels := labelAdd p.labels label }) }

/-- Embedding of `ProcTable::remove_label` (src/proc/table.rs lines
266-270). -/
def ProcTable.remove_label (t : ProcTable) (key : ProcKey) (label : Bytes) : ProcTable :=
  let procs :=
    mapModify t.procs key
      (fun p => { p with labels := p.labels.filter (fun l => !(l == label)) })
  { t with procs := procs }

/-- Embedding of `ProcTable::add_label_pid` (src/proc/table.rs lines
274-280). -/
def ProcTable.add_label_pid (t : ProcTable) (pid : Nat) (label : Bytes) : ProcTable :=
  match (pidGet t.by_pid pid).bind List.getLast? with
  | some key => t.add_label key label
  | none => t

/-- Embedding of `ProcTable::remove_label_pid` (src/proc/table.rs lines
284-290). -/
def ProcTable.remove_label_pid (t : ProcTable) (pid : Nat) (label : Bytes) : ProcTable :=
  match (pidGet t.by_pid pid).bind List.getLast? with
  | some key => t.remove_label key label
  | none => t

/-- Embedding of the inner `loop` of `ProcTable::expire`
(src/proc/table.rs lines 308-316): `if proc_prune.remove(&key) break`
otherwise follow `parent_key`.  The source loop terminates on acyclic
parent chains; `fuel` (chosen larger than the table in every use) bounds
the walk. -/
def expireWalk (procs : List (ProcKey × Process)) :
    Nat → List ProcKey → ProcKey → List ProcKey
  | 0, prune, _ => prune
  | fuel + 1, prune, key =>
    if setMem prune key then
      setRemove prune key
    else
      match (mapGet procs key).bind Process.parent_key with
      | some parent_key => expireWalk procs fuel prune parent_key
      | none => prune

/-- Embedding of `ProcTable::expire` (src/proc/table.rs lines 293-336).
The `live` pid snapshot is the result of `get_pids()` passed as an
argument (the `Err` early-return of `get_pids` leaves the table
unchanged and is not modelled). -/
def ProcTable.expire (t : ProcTable) (live : List Nat) : ProcTable :=
  let prune0 := t.procs.map Prod.fst
  let prune := live.foldl
    (fun pr seed_pid =>
      match (pidGet t.by_pid seed_pid).bind List.getLast? with
      | none => pr
      | some key => expireWalk t.procs (t.procs.length + 1) pr key)
    prune0
  let procs := prune.foldl (fun m k => mapRemove m k) t.procs
  let by_pid :=
    (t.by_pid.map (fun e => (e.fst, e.snd.filter (fun k => !(setMem prune k))))).filter
      (fun e => !(e.snd.isEmpty))
  { t with procs := procs, by_pid := by_pid }

/-! ### C1 / C4 scenario: live pids {1, 500}, chain P3 -> P2 -> P1

The table is built through public operations only: three `add_process`
calls create `P1 (pid=1)`, `P2 (pid=100, parent=P1)`,
`P3 (pid=500, parent=P2)`; pid 100 has exited, so the live snapshot is
`[1, 500]`. -/

/-- Key of P1. -/
def k1 : ProcKey := .Event ⟨100, 1⟩

/-- Key of P2. -/
def k2 : ProcKey := .Event ⟨200, 1⟩

/-- Key of P3. -/
def k3 : ProcKey := .Event ⟨300, 1⟩

/-- The scenario table before expiry. -/
def scenarioTable : ProcTable :=
  ((ProcTable.empty.add_process 1 0 ⟨100, 1⟩ none none).add_process 100 1 ⟨200, 1⟩ none
      none).add_process 500 100 ⟨300, 1⟩ none none

/-- The scenario table after `expire()` with live pids {1, 500}. -/
def scenarioAfter : ProcTable :=
  scenarioTable.expire [1, 500]

/-- C1: evaluating `expire()` on the claim scenario.  Before expiry the
chain P3 -> P2 -> P1 is present; after `expire()` with live pids
{1, 500} the entry P2 has been removed — the walk stops as soon as the
seed key is unmarked (`if proc_prune.remove(&key) { break; }`) and never
follows `parent_key`, so the exited ancestor of the live process P3 is
dropped, contrary to the claim (and to the source comment "unmark latest
instance in by_pids and all its parents"). -/
theorem expire_drops_live_ancestor :
    (scenarioTable.get k2).isSome = true ∧
    (scenarioTable.get k3).map Process.parent_key = some (some k2) ∧
    (scenarioTable.get k2).map Process.parent_key = some (some k1) ∧
    (scenarioAfter.get k1).isSome = true ∧
    (scenarioAfter.get k3).isSome = true ∧
    scenarioAfter.get k2 = none := by
  decide

/-- C2 parent process table: `propagate_labels = {"audited"}`, parent
P (pid 5) carries labels {"audited", "other"} added through
`add_label`. -/
def labelledParentTable : ProcTable :=
  let t0 : ProcTable :=
    { ProcTable.empty with propagate_labels := [[97, 117, 100, 105, 116, 101, 100]] }
  let t1 := t0.add_process 5 0 ⟨100, 1⟩ none none
  (t1.add_label (.Event ⟨100, 1⟩) [97, 117, 100, 105, 116, 101, 100]).add_label
    (.Event ⟨100, 1⟩) [111, 116, 104, 101, 114]

/-- C2 table after inserting the child with pid 7, ppid 5. -/
def labelledChildTable : ProcTable :=
  labelledParentTable.add_process 7 5 ⟨200, 1⟩ none none

/-- C2: evaluating `add_process` on the claim scenario.  The parent
(pid 5) holds labels {"audited" = [97,117,100,105,116,101,100],
"other" = [111,116,104,101,114]} and `propagate_labels = {"audited"}`,
yet the inserted child (pid 7) has an empty label set: `add_process`
builds the new `Process` with `labels = HashSet::new()` and never reads
`propagate_labels` or `label_exe`, contrary to the claim. -/
theorem add_process_child_labels_empty :
    (labelledChildTable.get (.Event ⟨100, 1⟩)).map Process.labels =
      some [[97, 117, 100, 105, 116, 101, 100], [111, 116, 104, 101, 114]] ∧
    (labelledChildTable.get (.Event ⟨200, 1⟩)).map Process.parent_key =
      some (some (.Event ⟨100, 1⟩)) ∧
    (labelledChildTable.get (.Event ⟨200, 1⟩)).map Process.labels = some [] := by
  decide

/-- Parent-linkage invariant of the table: every stored `parent_key`
names a key still present in `procs`. -/
def parentsPresent (t : ProcTable) : Bool :=
  t.procs.all
    (fun e =>
      match e.snd.parent_key with
      | none => true
      | some pk => (t.procs.map Prod.fst).contains pk)

/-- The invariant that every key in every `by_pid` list is a key of
`procs`. -/
def byPidKeysPresent (t : ProcTable) : Bool :=
  t.by_pid.all (fun e => e.snd.all (fun k => (t.procs.map Prod.fst).contains k))

/-- C4: the operation sequence `add_process`×3 followed by `expire`
breaks the `parent_key` invariant.  Before `expire()` every invariant
holds; afterwards the retained process P3 still records
`parent_key = Some(P2)` while P2 has been removed from `procs` — a
dangling parent reference. -/
theorem expire_breaks_parent_key_invariant :
    parentsPresent scenarioTable = true ∧
    byPidKeysPresent scenarioTable = true ∧
    byPidKeysPresent scenarioAfter = true ∧
    (scenarioAfter.get k3).map Process.parent_key = some (some k2) ∧
    (scenarioAfter.procs.map Prod.fst).contains k2 = false ∧
    parentsPresent scenarioAfter = false := by
  decide

/-! ## Keys of audit records (src/types.rs) -/

/-- Embedding of `enum Common` (src/types.rs lines 113-128). -/
inductive CommonK where
  | arch | syscall | success | exit | items | ppid | pid | tty | ses | comm | exe | subj | key
deriving DecidableEq, Repr

/-- Canonical names of the `Common` variants (the `COMMON` table,
src/types.rs lines 130-144), as ASCII bytes. -/
def CommonK.name : CommonK → Bytes
  | .arch => [97, 114, 99, 104]
  | .syscall => [115, 121, 115, 99, 97, 108, 108]
  | .success => [115, 117, 99, 99, 101, 115, 115]
  | .exit => [101, 120, 105, 116]
  | .items => [105, 116, 101, 109, 115]
  | .ppid => [112, 112, 105, 100]
  | .pid => [112, 105, 100]
  | .tty => [116, 116, 121]
  | .ses => [115, 101, 115]
  | .comm => [99, 111, 109, 109]
  | .exe => [101, 120, 101]
  | .subj => [115, 117, 98, 106]
  | .key => [107, 101, 121]

/-- Embedding of `enum Key` (src/types.rs lines 190-208).  Rust derives
`PartialEq`/`Eq` structurally; the derived `DecidableEq` mirrors that.
The `&'static str` payload of `Literal` is carried as bytes. -/
inductive Key where
  | name (b : Bytes)
  | nameUID (b : Bytes)
  | nameGID (b : Bytes)
  | common (c : CommonK)
  | nameTranslated (b : Bytes)
  | arg (x : Nat) (y : Option Nat)
  | argLen (x : Nat)
  | literal (s : Bytes)
deriving DecidableEq, Repr

/-- ASCII uppercase conversion of one byte
(`u8::to_ascii_uppercase`). -/
def toUpperByte (c : Nat) : Nat :=
  if 97 ≤ c ∧ c ≤ 122 then c - 32 else c

/-- Decimal ASCII rendering of a number (the `{}` format of an
unsigned integer). -/
def natToDec (n : Nat) : Bytes :=
  (Nat.toDigits 10 n).map Char.toNat

/-- Embedding of `impl Display for Key` (src/types.rs lines 222-242):
the canonical textual form of a key, as bytes. -/
def Key.render : Key → Bytes
  | .arg x (some y) => [97] ++ natToDec x ++ [91] ++ natToDec y ++ [93]
  | .arg x none => [97] ++ natToDec x
  | .argLen x => [97] ++ natToDec x ++ [95, 108, 101, 110]
  | .name b => b
  | .nameUID b => b
  | .nameGID b => b
  | .common c => c.name
  | .nameTranslated b => b.map toUpperByte
  | .literal s => s

/-- Embedding of `impl PartialEq<[u8]> for Key` (src/types.rs lines
273-280): `Name`/`NameUID`/`NameGID` compare their bytes directly, every
other variant compares its rendered textual form. -/
def Key.eqBytes : Key → Bytes → Bool
  | .name r, other => r == other
  | .nameUID r, other => r == other
  | .nameGID r, other => r == other
  | k, other => Key.render k == other

/-- C6 counterexample: `Key::Common(Common::Pid)` and `Key::Name("pid")`
render to the same canonical bytes `"pid"` yet are unequal under the
derived structural equality, refuting the claimed "equal iff canonical
forms equal". -/
theorem key_equality_not_canonical :
    Key.render (Key.common CommonK.pid) = Key.render (Key.name [112, 105, 100]) ∧
    Key.common CommonK.pid ≠ Key.name [112, 105, 100] := by
  decide

/-- C6 amended: `Key` equality is the derived structural equality, which
is strictly finer than equality of canonical textual forms — equal keys
always render identically, while the comparison of a `Key` against a
byte string (`PartialEq<[u8]>`) does test the canonical form. -/
theorem key_equality_characterization :
    (∀ key1 key2 : Key, key1 = key2 → Key.render key1 = Key.render key2) ∧
    (∀ (k : Key) (b : Bytes), Key.eqBytes k b = (Key.render k == b)) := by
  constructor
  · intro key1 key2 h
    rw [h]
  · intro k b
    cases k <;> rfl

/-- Witness for the amended C6 theorem at concrete keys. -/
theorem key_equality_characterization_witness :
    Key.render (Key.common CommonK.pid) = Key.render (Key.common CommonK.pid) ∧
    Key.eqBytes (Key.name [112, 105, 100]) [112, 105, 100] =
      (Key.render (Key.name [112, 105, 100]) == [112, 105, 100]) :=
  ⟨key_equality_characterization.1 _ _ rfl, key_equality_characterization.2 _ _⟩

/-! ## Values and records (src/types.rs) -/

/-- Embedding of a `Range<usize>` offset into a record raw buffer;
`stop` is Rust field `end`. -/
structure RangeN where
  start : Nat
  stop : Nat
deriving DecidableEq, Repr

/-- Embedding of the `Offset` trait on `Range<usize>` (src/types.rs
lines 879-890). -/
def RangeN.offset (r : RangeN) (off : Nat) : RangeN :=
  ⟨r.start + off, r.stop + off⟩

/-- Resolution of a range against a raw buffer (`&raw[r]`; all ranges in
well-formed records lie inside the buffer, where the slice is total). -/
def sliceRange (raw : Bytes) (r : RangeN) : Bytes :=
  (raw.take r.stop).drop r.start

/-- Embedding of `enum Quote` (src/types.rs lines 283-289). -/
inductive QuoteK where
  | none | single | double | braces
deriving DecidableEq, Repr

/-- Embedding of `enum Number` (src/types.rs lines 291-296). -/
inductive NumberK where
  | hex (n : Nat)
  | dec (n : Int)
  | oct (n : Nat)
deriving DecidableEq, Repr

/-- Embedding of `enum SimpleRecordKey` (src/types.rs lines 446-450). -/
inductive SimpleRecordKey where
  | str (r : RangeN)
  | literal (s : Bytes)
deriving DecidableEq, Repr

/-- Embedding of `enum SimpleRecordValue` (src/types.rs lines
452-456). -/
inductive SimpleRecordValue where
  | str (r : RangeN)
  | number (n : NumberK)
deriving DecidableEq, Repr

/-- Embedding of `enum RecordValue` (src/types.rs lines 325-346): the
storage form holding ranges into the owning record's raw buffer. -/
inductive RecordValue where
  | empty
  | str (r : RangeN) (q : QuoteK)
  | segments (rs : List RangeN)
  | list (vs : List RecordValue)
  | stringifiedList (vs : List RecordValue)
  | map (kvs : List (SimpleRecordKey × SimpleRecordValue))
  | number (n : NumberK)
  | skipped (a b : Nat)
  | literal (s : Bytes)

/-- Embedding of `enum SimpleKey` (src/types.rs lines 459-463), the
borrowed view of `SimpleRecordKey`. -/
inductive SimpleKeyV where
  | str (s : Bytes)
  | literal (s : Bytes)
deriving DecidableEq, Repr

/-- Embedding of `enum SimpleValue` (src/types.rs lines 489-493). -/
inductive SimpleValueV where
  | str (s : Bytes)
  | number (n : NumberK)
deriving DecidableEq, Repr

/-- Embedding of `enum Value` (src/types.rs lines 348-359): the borrowed
view with resolved byte slices. -/
inductive Value where
  | empty
  | str (s : Bytes) (q : QuoteK)
  | segments (ss : List Bytes)
  | list (vs : List Value)
  | stringifiedList (vs : List Value)
  | map (kvs : List (SimpleKeyV × SimpleValueV))
  | number (n : NumberK)
  | skipped (a b : Nat)
  | literal (s : Bytes)

/-- Embedding of `SimpleKey::from_rv` (src/types.rs lines 466-471). -/
def SimpleKeyV.fromRv (raw : Bytes) : SimpleRecordKey → SimpleKeyV
  | .str r => .str (sliceRange raw r)
  | .literal s => .literal s

/-- Embedding of `SimpleValue::from_rv` (src/types.rs lines 496-501). -/
def SimpleValueV.fromRv (raw : Bytes) : SimpleRecordValue → SimpleValueV
  | .str r => .str (sliceRange raw r)
  | .number n => .number n

mutual

/-- Embedding of `Value::from_rv` (src/types.rs lines 362-382):
projection of a stored value to the borrowed view by resolving every
range against the raw buffer.  The `v.iter().map(Value::from_rv)` of the
`List`/`StringifiedList` arms is expressed through the mutual list
helper `fromRvList`. -/
def Value.fromRv (raw : Bytes) : RecordValue → Value
  | .empty => .empty
  | .str r q => .str (sliceRange raw r) q
  | .segments rs => .segments (rs.map (sliceRange raw))
  | .list vs => .list (fromRvList raw vs)
  | .stringifiedList vs => .stringifiedList (fromRvList raw vs)
  | .map kvs =>
    .map (kvs.map (fun kv => (SimpleKeyV.fromRv raw kv.fst, SimpleValueV.fromRv raw kv.snd)))
  | .number n => .number n
  | .skipped a b => .skipped a b
  | .literal s => .literal s

/-- Elementwise `Value::from_rv` over a stored value list. -/
def fromRvList (raw : Bytes) : List RecordValue → List Value
  | [] => []
  | v :: vs => Value.fromRv raw v :: fromRvList raw vs

end

/-- Embedding of `Record` (src/types.rs lines 521-526): ordered
key/value pairs over one growable raw buffer. -/
structure Record where
  elems : List (Key × RecordValue)
  raw : Bytes

/-- Iteration over a record (`impl Iterator for RecordIterator`,
src/types.rs lines 629-651): pairs in insertion order with values
resolved against the raw buffer. -/
def Record.pairs (r : Record) : List (Key × Value) :=
  r.elems.map (fun e => (e.fst, Value.fromRv r.raw e.snd))

/-- Rebasing of one stored value during `Record::extend` (the `match v`
of src/types.rs lines 564-593): `Str` ranges are offset by the pre-merge
buffer length; `Empty`/`Number`/`Literal` pass through; inside `Map`
values only the `SimpleRecordValue::Str` ranges are offset while the map
keys are passed through unchanged; `Segments`, `Skipped`, `List` and
`StringifiedList` panic in the source (modelled as `none`). -/
def rebaseValue (rawlen : Nat) : RecordValue → Option RecordValue
  | .str r q => some (.str (r.offset rawlen) q)
  | .empty => some .empty
  | .number n => some (.number n)
  | .literal s => some (.literal s)
  | .map kvs =>
    some (.map (kvs.map (fun kv =>
      (kv.fst,
        match kv.snd with
        | .str r => SimpleRecordValue.str (r.offset rawlen)
        | v => v))))
  | .segments _ => none
  | .skipped _ _ => none
  | .list _ => none
  | .stringifiedList _ => none

/-- Embedding of `Record::extend` (src/types.rs lines 554-598): append
the other record's raw buffer and its elements with values rebased by
the pre-merge buffer length; `none` models the panics on `EXECVE`-only
value shapes. -/
def Record.extend (r other : Record) : Option Record :=
  let rawlen := r.raw.length
  (other.elems.mapM (fun e => (rebaseValue rawlen e.snd).map (fun v => (e.fst, v)))).map
    (fun newElems => { elems := r.elems ++ newElems, raw := r.raw ++ other.raw })

/-- C5 scenario, record R1: raw `"abc"`, one scalar string element
covering the whole buffer. -/
def recordR1 : Record :=
  { elems := [(Key.name [107, 49], RecordValue.str ⟨0, 3⟩ QuoteK.none)], raw := [97, 98, 99] }

/-- C5 scenario, record R2: raw `"k=v"`, one `Map` element whose key
`Str(0..1)` resolves to `"k"` and whose value `Str(2..3)` resolves to
`"v"`. -/
def recordR2 : Record :=
  { elems := [(Key.name [107, 50],
      RecordValue.map [(SimpleRecordKey.str ⟨0, 1⟩, SimpleRecordValue.str ⟨2, 3⟩)])],
    raw := [107, 61, 118] }

/-- C5: evaluating `Record::extend` on a scalar record containing a
`Map`.  Before the merge the map key of R2 resolves to `"k"` ([107]) and
its value to `"v"` ([118]).  After `R1.extend(R2)` the map value range
has been rebased (still `"v"`), but the map key range was passed through
un-rebased, so it now resolves to `"a"` ([97]) — the first byte of R1's
buffer — instead of its pre-merge bytes, contrary to the claim. -/
theorem extend_leaves_map_keys_unrebased :
    recordR2.pairs =
      [(Key.name [107, 50],
        Value.map [(SimpleKeyV.str [107], SimpleValueV.str [118])])] ∧
    (recordR1.extend recordR2).map Record.pairs =
      some
        [(Key.name [107, 49], Value.str [97, 98, 99] QuoteK.none),
         (Key.name [107, 50],
          Value.map [(SimpleKeyV.str [97], SimpleValueV.str [118])])] :=
  ⟨rfl, rfl⟩

/-- Embedding of `impl TryFrom<Value> for Vec<u8>` (src/types.rs lines
653-683): scalar conversion of a value to bytes. -/
def Value.tryIntoVec : Value → Except String Bytes
  | .str r .braces => .ok ([123] ++ r ++ [125])
  | .str r _ => .ok r
  | .empty => .ok []
  | .segments rs => .ok rs.flatten
  | .number _ => .error "Wont convert number to string"
  | .list _ => .error "Cant convert list to scalar"
  | .stringifiedList _ => .error "Cant convert list to scalar"
  | .map _ => .error "Cant convert map to scalar"
  | .skipped _ _ => .error "Cant convert skipped to scalar"
  | .literal s => .ok s

/-- C9: scalar conversion succeeds exactly as claimed — `Str` with
`Braces` wraps the bytes in braces, `Str` with any other quoting emits
the bytes verbatim, `Empty` yields empty bytes, `Segments` yields the
concatenation of its slices and `Literal` its bytes — while `Number`,
`List`, `StringifiedList`, `Map` and `Skipped` all fail with the typed
conversion error. -/
theorem value_scalar_conversion :
    ∀ (b : Bytes) (rs : List Bytes) (n : NumberK) (vs : List Value)
      (kvs : List (SimpleKeyV × SimpleValueV)) (a c : Nat),
      Value.tryIntoVec (.str b .braces) = .ok ([123] ++ b ++ [125]) ∧
      Value.tryIntoVec (.str b .none) = .ok b ∧
      Value.tryIntoVec (.str b .single) = .ok b ∧
      Value.tryIntoVec (.str b .double) = .ok b ∧
      Value.tryIntoVec .empty = .ok [] ∧
      Value.tryIntoVec (.segments rs) = .ok rs.flatten ∧
      Value.tryIntoVec (.literal b) = .ok b ∧
      Value.tryIntoVec (.number n) = .error "Wont convert number to string" ∧
      Value.tryIntoVec (.list vs) = .error "Cant convert list to scalar" ∧
      Value.tryIntoVec (.stringifiedList vs) = .error "Cant convert list to scalar" ∧
      Value.tryIntoVec (.map kvs) = .error "Cant convert map to scalar" ∧
      Value.tryIntoVec (.skipped a c) = .error "Cant convert skipped to scalar" := by
  intro b rs n vs kvs a c
  exact ⟨rfl, rfl, rfl, rfl, rfl, rfl, rfl, rfl, rfl, rfl, rfl, rfl⟩

/-! ## ProcFS reader (src/procfs.rs)

File contents and clock readings are I/O; the embedded functions take
the byte buffer of the file in question (and, for `parse_proc_pid`, the
cached `CLK_TCK` value and the `CLOCK_BOOTTIME` / `CLOCK_REALTIME`
readings) as arguments. -/

/-- Splitting of a byte buffer on a separator byte, with the semantics
of Rust `slice::split`: the separators are dropped and empty fragments
are kept (an empty buffer yields one empty fragment). -/
def splitByte (sep : Nat) : Bytes → List Bytes
  | [] => [[]]
  | c :: rest =>
    if c = sep then
      [] :: splitByte sep rest
    else
      match splitByte sep rest with
      | [] => [[c]]
      | h :: t => (c :: h) :: t

/-- Embedding of `u8::is_ascii_hexdigit`: a decimal digit or a hex
letter of either case. -/
def isAsciiHexdigit (c : Nat) : Bool :=
  (48 ≤ c && c ≤ 57) || (97 ≤ c && c ≤ 102) || (65 ≤ c && c ≤ 70)

/-- Embedding of `extract_sha256` (src/procfs.rs lines 154-164): a
64-byte all-hex slice of the fragment, preferring the trailing one. -/
def extract_sha256 (buf : Bytes) : Option Bytes :=
  if buf.length < 64 then none
  else if (buf.drop (buf.length - 64)).all isAsciiHexdigit then
    some (buf.drop (buf.length - 64))
  else if (buf.take 64).all isAsciiHexdigit then
    some (buf.take 64)
  else none

/-- The suffix `".scope"` as bytes. -/
def scopeSuffix : Bytes := [46, 115, 99, 111, 112, 101]

/-- Embedding of `parse_cgroup_buf` (src/procfs.rs lines 171-190).  The
Rust function returns `Result<Option<Vec<u8>>, _>` but contains no
fallible operation — every path returns `Ok` — so the embedding returns
the `Option` directly: split the buffer on newlines, take each line's
third colon-separated field (skipping lines with fewer than three
fields), split it on `/`, strip a trailing `".scope"` from each
fragment, and return the first `extract_sha256` hit. -/
def parse_cgroup_buf (buf : Bytes) : Option Bytes :=
  (splitByte 10 buf).findSome? fun line =>
    match (splitByte 58 line).get? 2 with
    | none => none
    | some dir =>
      (splitByte 47 dir).findSome? fun fragment =>
        extract_sha256
          (if scopeSuffix.isSuffixOf fragment then
            fragment.take (fragment.length - 6)
          else fragment)

/-- A 65-byte fragment whose leading and trailing 64-byte windows are
both all-hex but differ: 64 `'0'` bytes followed by one `'f'`. -/
def hexFragment65 : Bytes := List.replicate 64 48 ++ [102]

/-- The docker cgroup line of the specification:
`0::/system.slice/docker-47335b04…ccb9e6c.scope`. -/
def dockerCgroupLine : Bytes :=
  [48, 58, 58, 47, 115, 121, 115, 116, 101, 109, 46, 115, 108, 105, 99, 101, 47, 100, 111,
   99, 107, 101, 114, 45, 52, 55, 51, 51, 53, 98, 48, 52, 101, 98, 98, 52, 97, 101, 102,
   100, 99, 51, 53, 51, 100, 100, 97, 54, 50, 100, 100, 100, 51, 56, 101, 53, 101, 49, 101,
   48, 48, 102, 99, 49, 51, 55, 50, 102, 48, 99, 56, 100, 48, 49, 51, 56, 52, 49, 55, 102,
   48, 99, 99, 98, 57, 101, 54, 99, 46, 115, 99, 111, 112, 101]

/-- The 64 hex bytes `47335b04…ccb9e6c` inside the docker line. -/
def dockerSha : Bytes :=
  [52, 55, 51, 51, 53, 98, 48, 52, 101, 98, 98, 52, 97, 101, 102, 100, 99, 51, 53, 51, 100,
   100, 97, 54, 50, 100, 100, 100, 51, 56, 101, 53, 101, 49, 101, 48, 48, 102, 99, 49, 51,
   55, 50, 102, 48, 99, 56, 100, 48, 49, 51, 56, 52, 49, 55, 102, 48, 99, 99, 98, 57, 101,
   54, 99]

/-- Malformed/hit-free cgroup content: a line with fewer than three
colon-separated fields, a `foo.service` line without a SHA-256
fragment, and a trailing fragment-free line
(`"junk\n0:name=systemd:/system.slice/foo.service\nnocolons"`). -/
def fooServiceBuf : Bytes :=
  [106, 117, 110, 107, 10, 48, 58, 110, 97, 109, 101, 61, 115, 121, 115, 116, 101, 109,
   100, 58, 47, 115, 121, 115, 116, 101, 109, 46, 115, 108, 105, 99, 101, 47, 102, 111,
   111, 46, 115, 101, 114, 118, 105, 99, 101, 10, 110, 111, 99, 111, 108, 111, 110, 115]

/-- C7: `extract_sha256` succeeds on exactly the fragments whose length
is at least 64 with an all-hex trailing or leading 64-byte window,
preferring the trailing window when both qualify; `parse_cgroup_buf`
returns the first hit — stripping the `.scope` suffix — and `none`
(never an error) on content without one. -/
theorem cgroup_sha256_extraction :
    (∀ buf : Bytes,
      (extract_sha256 buf).isSome =
        (decide (64 ≤ buf.length) &&
          ((buf.drop (buf.length - 64)).all isAsciiHexdigit ||
            (buf.take 64).all isAsciiHexdigit))) ∧
    extract_sha256 hexFragment65 = some (hexFragment65.drop 1) ∧
    hexFragment65.take 64 ≠ hexFragment65.drop 1 ∧
    parse_cgroup_buf dockerCgroupLine = some dockerSha ∧
    parse_cgroup_buf fooServiceBuf = none := by
  refine ⟨?_, by decide, by decide, by decide, by decide⟩
  intro buf
  unfold extract_sha256
  split_ifs with h1 h2 h3
  · have h : ¬ 64 ≤ buf.length := by omega
    simp [h]
  · have h : 64 ≤ buf.length := by omega
    simp [h, h2]
  · have h : 64 ≤ buf.length := by omega
    simp [h, h2, h3]
  · have h : 64 ≤ buf.length := by omega
    simp [h, h2, h3]

/-- A `timespec` as produced by `clock_gettime`, with normalized
arithmetic (`nix::sys::time::TimeSpec`). -/
structure TimeSpec where
  sec : Int
  nsec : Int
deriving DecidableEq, Repr

/-- Normalizing subtraction of two timespecs (`impl Sub for TimeSpec`):
borrow one second when the nanosecond difference is negative. -/
def tsSub (a b : TimeSpec) : TimeSpec :=
  if a.nsec - b.nsec < 0 then
    { sec := a.sec - b.sec - 1, nsec := a.nsec - b.nsec + 1000000000 }
  else
    { sec := a.sec - b.sec, nsec := a.nsec - b.nsec }

/-- The Rust `as u64` cast on a signed 64-bit value: two's-complement
wrapping. -/
def asU64 (x : Int) : Nat :=
  (x % (2 ^ 64 : Int)).toNat

/-- One byte of an ASCII decimal digit. -/
def isDigitByte (c : Nat) : Bool :=
  48 ≤ c && c ≤ 57

/-- The numeric value of an ASCII digit string. -/
def decValue (b : Bytes) : Nat :=
  b.foldl (fun acc c => acc * 10 + (c - 48)) 0

/-- Digits-only part of `u{32,64}::from_str`: nonempty, all decimal
digits, value within the integer width. -/
def parseUIntDigits (bits : Nat) (digits : Bytes) : Option Nat :=
  if digits.isEmpty then none
  else if digits.all isDigitByte then
    if decValue digits < 2 ^ bits then some (decValue digits) else none
  else none

/-- Embedding of `uN::from_str` on the `String::from_utf8_lossy` view of
a byte field: an optional leading `'+'` followed by decimal digits whose
value fits the width (any non-ASCII byte turns into a non-digit
replacement character under the lossy decoding, so byte-level digit
checking is equivalent). -/
def parseUInt (bits : Nat) (b : Bytes) : Option Nat :=
  match b with
  | 43 :: digits => parseUIntDigits bits digits
  | digits => parseUIntDigits bits digits

/-- Embedding of `u32::from_str`. -/
def parse_u32 (b : Bytes) : Option Nat :=
  parseUInt 32 b

/-- Embedding of `u64::from_str`. -/
def parse_u64 (b : Bytes) : Option Nat :=
  parseUInt 64 b

/-- Index of the last byte satisfying the predicate
(`iter().enumerate().rfind(…)`). -/
def findLastIdx (p : Nat → Bool) : Bytes → Option Nat
  | [] => none
  | c :: rest =>
    match findLastIdx p rest with
    | some i => some (i + 1)
    | none => if p c then some 0 else none

/-- Outcome of the embedded `parse_proc_pid`: a successful
`(pid, ppid, starttime_ms)` triple, a propagated error, or a Rust panic
from out-of-bounds slice indexing. -/
inductive StatResult where
  | ok (pid ppid starttime : Nat)
  | err (msg : String)
  | panicked
deriving DecidableEq, Repr

/-- Embedding of `parse_proc_pid` (src/procfs.rs lines 89-152) on the
contents of `/proc/<pid>/stat`, restricted to the data the claims are
about — the optional `comm`/`exe`/`cgroup` reads are independent I/O
that cannot affect the `pid`/`ppid`/`starttime` fields.  The pid field
is bounded by the first space; the fields after `comm` start two bytes
past the last `')'` (`&buf[comm_end + 2..]` panics when that start
exceeds the buffer length); `ppid` is field index 1 and `starttime`
ticks field index 19 after the comm delimiter, where Rust `stat[1]` /
`stat[19]` indexing panics when the field list is too short.  The ticks
are converted to Unix-epoch milliseconds through `CLK_TCK` and the
`BOOTTIME`/`REALTIME` clock readings; every quantity on the success path
is nonnegative, so Lean integer division agrees with Rust truncation
here. -/
def parse_proc_pid (buf : Bytes) (clkTck : Nat) (boottime realtime : TimeSpec) : StatResult :=
  match buf.findIdx? (fun c => c == 32) with
  | none => .err "end of pid field not found"
  | some pid_end =>
    match findLastIdx (fun c => c == 41) buf with
    | none => .err "end of cmd field not found"
    | some comm_end =>
      if buf.length < comm_end + 2 then .panicked
      else
        match parse_u32 (buf.take pid_end) with
        | none => .err "invalid pid"
        | some pid =>
          match (splitByte 32 (buf.drop (comm_end + 2))).get? 1 with
          | none => .panicked
          | some field1 =>
            match parse_u32 field1 with
            | none => .err "invalid ppid"
            | some ppid =>
              match (splitByte 32 (buf.drop (comm_end + 2))).get? 19 with
              | none => .panicked
              | some field19 =>
                match parse_u64 field19 with
                | none => .err "invalid starttime"
                | some ticks =>
                  let procBoottime : TimeSpec :=
                    { sec := (ticks / clkTck : Nat),
                      nsec := ((ticks % clkTck) * (1000000000 / clkTck) : Nat) }
                  let procAge := tsSub boottime procBoottime
                  let wall := tsSub realtime procAge
                  .ok pid ppid (asU64 (wall.sec * 1000 + wall.nsec / 1000000))

/-- The stat line of the specification scenario:
`"1234 (weird )name) S 1 2 3 4 5 6 7 8 9 10 11 12 13 14 15 16 17 18 54321 0"`
— the comm field contains both a space and `')'`, and field 22 holds
54321 starttime ticks. -/
def statScenarioBuf : Bytes :=
  [49, 50, 51, 52, 32, 40, 119, 101, 105, 114, 100, 32, 41, 110, 97, 109, 101, 41, 32, 83,
   32, 49, 32, 50, 32, 51, 32, 52, 32, 53, 32, 54, 32, 55, 32, 56, 32, 57, 32, 49, 48, 32,
   49, 49, 32, 49, 50, 32, 49, 51, 32, 49, 52, 32, 49, 53, 32, 49, 54, 32, 49, 55, 32, 49,
   56, 32, 53, 52, 51, 50, 49, 32, 48]

/-- C8: on the scenario stat line — whose comm field contains `')'` and
spaces — with `CLK_TCK = 100`, `BOOTTIME = 1000.000s` and
`REALTIME = 1700000000.000s`, the parse delimits the pid at the first
space and the comm at the last `')'`, reads ppid 1 from field 4 and
54321 ticks from field 22, and converts the ticks to
`starttime_ms = 1699999543210`. -/
theorem stat_parse_scenario :
    parse_proc_pid statScenarioBuf 100 { sec := 1000, nsec := 0 }
      { sec := 1700000000, nsec := 0 } = StatResult.ok 1234 1 1699999543210 := by
  decide

/-- The buffer `"x (c) 1 2"`: it contains a space and a `')'` and has
only two fields after the comm delimiter, but its pid field `"x"` is not
numeric. -/
def statNonNumericBuf : Bytes :=
  [120, 32, 40, 99, 41, 32, 49, 32, 50]

/-- C10 counterexample: a stat buffer satisfying every premise of the
claim — it contains a space, a `')'`, and fewer than 20 fields after the
last `')'` — on which `parse_proc_pid` does not panic: its pid field is
non-numeric, and the `u32::from_str` error on the pid (source line 122)
propagates before the panicking `stat[1]` indexing (line 123) is ever
evaluated. -/
theorem stat_short_buffer_errs_before_panic :
    (statNonNumericBuf.findIdx? (fun c => c == 32)).isSome = true ∧
    findLastIdx (fun c => c == 41) statNonNumericBuf = some 4 ∧
    (splitByte 32 (statNonNumericBuf.drop 6)).length < 20 ∧
    parse_proc_pid statNonNumericBuf 100 { sec := 0, nsec := 0 } { sec := 0, nsec := 0 } =
      StatResult.err "invalid pid" := by
  decide

/-- C10 amended: for every successfully read stat buffer containing a
space and at least one `')'`, with fewer than 20 space-separated fields
after the last `')'`, parse_proc_pid panics from out-of-bounds indexing
(the `&buf[comm_end+2..]` slice, `stat[1]`, or `stat[19]`) rather than
returning a contextual error — provided the pid field parses as `u32`
and, when a second post-comm field exists, the ppid field parses as
`u32`; with a non-numeric pid or ppid field the function instead
returns that parse error first. -/
theorem stat_few_fields_panics (buf : Bytes) (clkTck : Nat) (bt rt : TimeSpec)
    (pe ce : Nat)
    (hsp : buf.findIdx? (fun c => c == 32) = some pe)
    (hce : findLastIdx (fun c => c == 41) buf = some ce)
    (hpid : (parse_u32 (buf.take pe)).isSome = true)
    (hfew : (splitByte 32 (buf.drop (ce + 2))).length < 20)
    (hppid : (((splitByte 32 (buf.drop (ce + 2))).get? 1).map
        (fun f => (parse_u32 f).isSome)).getD true = true) :
    parse_proc_pid buf clkTck bt rt = StatResult.panicked := by
  unfold parse_proc_pid
  rw [hsp, hce]
  by_cases hlen : buf.length < ce + 2
  · simp [hlen]
  · simp only [if_neg hlen]
    rcases hp : parse_u32 (buf.take pe) with _ | pid
    · rw [hp] at hpid
      simp at hpid
    · simp only [hp]
      rcases h1 : (splitByte 32 (buf.drop (ce + 2))).get? 1 with _ | field1
      · simp only [h1]
      · simp only [h1]
        rw [h1] at hppid
        simp at hppid
        rcases hq : parse_u32 field1 with _ | ppid
        · rw [hq] at hppid
          simp at hppid
        · simp only [hq]
          have h19 : (splitByte 32 (buf.drop (ce + 2))).get? 19 = none := by
            rw [List.get?_eq_none]
            omega
          simp only [h19]

/-- Witness for the amended C10 theorem: the buffer `"1 (c) 2 3"` has a
numeric pid field, a numeric second post-comm field, and only two fields
after the comm delimiter, and parsing it panics. -/
theorem stat_few_fields_panics_witness :
    parse_proc_pid [49, 32, 40, 99, 41, 32, 50, 32, 51] 100 { sec := 0, nsec := 0 }
      { sec := 0, nsec := 0 } = StatResult.panicked :=
  stat_few_fields_panics _ _ _ _ 1 4 (by decide) (by decide) (by decide) (by decide)
    (by decide)

end Laurel
